import Mathlib

/-!
# Verification of the culture-tracker core

A shallow embedding, in Lean 4, of the core of the cell-culture tracking
API: the growth-kinetics calculator (`api/app/calcs.py`), the lineage
manager (`api/app/crud.py`, `api/app/routers/cell_states.py`) and the
parameter merge-update (`api/app/main.py`), together with theorems about
their behaviour.

Modelling conventions:
* Python floats are modelled as real numbers (`ℝ`); Python `None` as
  `Option.none`; a raised exception as `Except.error`.
* JSON parameter dictionaries are modelled as ordered association lists
  `List (String × JValue)`; `dict.get`/`dict.update` become `lookup` and
  `dictUpdate` below, which follow Python's first-key-wins and
  preserve-insertion-order semantics.
* Timestamps parsed by `datetime.strptime(_, "%Y-%m-%dT%H:%M")` are
  modelled by their value in minutes (an integer, since that format has
  minute resolution); timestamps parsed by `datetime.fromisoformat` are
  modelled by their value in seconds (a real number).
-/

namespace CultureTracker

/-- JSON-like values stored in a state's `parameters` mapping.
Numbers are modelled as reals; `bool` is kept separate from `num`
because Python distinguishes them (while `isinstance(True, int)` holds,
which `isNumeric`/`numVal` below account for). -/
inductive JValue where
  | null
  | bool (b : Bool)
  | num (x : ℝ)
  | str (s : String)
  | arr (elems : List JValue)
  | obj (fields : List (String × JValue))

/-- A Python dict with string keys, as an insertion-ordered association list. -/
abbrev Params := List (String × JValue)

/-- Python `d.get(k)`: the value of the first entry with key `k`, if any. -/
def lookup (d : Params) (k : String) : Option JValue :=
  (d.find? fun p => decide (p.1 = k)).map (fun p => p.2)

/-- Python `d.update(inc)`: every key of `inc` overwrites the value of the matching
key of `d` (keeping `d`'s key order), and keys of `inc` absent from `d` are
appended in `inc`'s order. -/
def dictUpdate (d inc : Params) : Params :=
  (d.map fun p =>
    match lookup inc p.1 with
    | some v => (p.1, v)
    | none => p)
  ++ inc.filter fun p => (lookup d p.1).isNone

/-- Python truthiness of a JSON value (`if v:`). -/
def JValue.truthy : JValue → Prop
  | .null => False
  | .bool b => b = true
  | .num x => x ≠ 0
  | .str s => s ≠ ""
  | .arr l => l ≠ []
  | .obj l => l ≠ []

/-- Python `isinstance(v, (int, float))` — `bool` is a subclass of `int` in Python. -/
def JValue.isNumeric : JValue → Bool
  | .num _ => true
  | .bool _ => true
  | _ => false

/-- The numeric value of a numeric JSON value (`True == 1`, `False == 0`). -/
def JValue.numVal : JValue → ℝ
  | .num x => x
  | .bool b => if b then 1 else 0
  | _ => 0

/-- A row of the `cellstate` table (`api/app/models.py`, class `CellState`).
`timestamp` is modelled in seconds. The self-referencing foreign key
`parent_id` is kept as a raw optional integer, exactly as stored. -/
structure CellState where
  id : ℤ
  name : String := ""
  timestamp : ℝ := 0
  parent_id : Option ℤ := none
  parameters : Params := []
  notes : Option String := none
  transition_type : Option String := none
  additional_notes : Option String := none

/-- The result dictionary of `calcs.calculate_measured_parameters`. -/
structure MeasuredParams where
  measured_growth_rate : Option ℝ
  measured_doubling_time : Option ℝ
  measured_density_limit : Option ℝ

namespace Calcs

/-- Embeds `calcs.calc_generation(seed_count, harvest_count, parent_generation)`:
raises `ValueError` when either count is non-positive, otherwise returns
`log2(harvest_count / seed_count)`, plus `parent_generation` when one is
supplied. -/
noncomputable def calc_generation (seed_count harvest_count : ℤ)
    (parent_generation : Option ℝ := none) : Except String ℝ :=
  if seed_count ≤ 0 ∨ harvest_count ≤ 0 then
    .error "Seed and harvest counts must be positive"
  else
    let current_pd : ℝ := Real.logb 2 ((harvest_count : ℝ) / (seed_count : ℝ))
    match parent_generation with
    | none => .ok current_pd
    | some p => .ok (p + current_pd)

/-- Embeds `calcs.calc_doubling_time_hours(start_time, harvest_time, pd)`.
`start_time` and `harvest_time` are the parsed timestamps, in minutes
(the `"%Y-%m-%dT%H:%M"` format has minute resolution); the code takes
`total_seconds() / 3600.0` of their difference and divides by `pd` when
`pd > 0`, returning `None` otherwise. -/
noncomputable def calc_doubling_time_hours (start_time harvest_time : ℤ)
    (pd : ℝ) : Option ℝ :=
  let hours : ℝ := ((harvest_time - start_time : ℤ) : ℝ) * 60 / 3600
  if pd > 0 then some (hours / pd) else none

/-- Embeds `calcs.calc_cumulative_pd(current_pd, parent_pd)`. -/
noncomputable def calc_cumulative_pd (current_pd : Option ℝ)
    (parent_pd : Option ℝ := none) : Option ℝ :=
  match current_pd with
  | none => none
  | some c =>
    match parent_pd with
    | none => some c
    | some p => some (c + p)

open Classical in
/-- Rounding half-to-even of a real to an integer, as Python's builtin
`round` behaves on exact halves. -/
noncomputable def roundHalfToEven (x : ℝ) : ℤ :=
  if x - ⌊x⌋ < 1 / 2 then ⌊x⌋
  else if 1 / 2 < x - ⌊x⌋ then ⌊x⌋ + 1
  else if ⌊x⌋ % 2 = 0 then ⌊x⌋ else ⌊x⌋ + 1

/-- Python's `round(x, ndigits)` modelled over the reals. -/
noncomputable def pyRound (x : ℝ) (ndigits : ℤ) : ℝ :=
  (roundHalfToEven (x * (10 : ℝ) ^ ndigits) : ℝ) / (10 : ℝ) ^ ndigits

open Classical in
/-- Embeds `calcs.calculate_measured_parameters(start_density, end_density,
start_time, end_time)`.  The two timestamps are the values parsed by
`datetime.fromisoformat`, in seconds.  The `raise`s inside the `try`
block are caught by the surrounding `except (ValueError, TypeError)`
handler, which returns the all-`None` dictionary. -/
noncomputable def calculate_measured_parameters
    (start_density end_density : ℝ) (start_time end_time : ℝ) :
    MeasuredParams :=
  let hours : ℝ := (end_time - start_time) / 3600
  if hours ≤ 0 then ⟨none, none, none⟩
  else if start_density ≤ 0 ∨ end_density ≤ 0 then ⟨none, none, none⟩
  else if end_density < start_density then ⟨none, none, none⟩
  else
    let growth_rate : ℝ := Real.log (end_density / start_density) / hours
    let doubling_time : Option ℝ :=
      if growth_rate > 0 then some (Real.log 2 / growth_rate) else none
    let density_limit : ℝ :=
      if end_density > 1.5 * start_density then 2 * end_density
      else 1.2 * end_density
    { measured_growth_rate := some (pyRound growth_rate 6)
      measured_doubling_time :=
        -- `round(doubling_time, 2) if doubling_time else None`:
        -- Python truthiness also maps a 0.0 doubling time to None.
        match doubling_time with
        | some dt => if dt ≠ 0 then some (pyRound dt 2) else none
        | none => none
      measured_density_limit := some (pyRound density_limit 0) }

end Calcs

/-- Embeds `session.get(CellState, i)`: the row with primary key `i`, if any
(the first matching row; primary keys are unique in an actual database). -/
def getState (db : List CellState) (i : ℤ) : Option CellState :=
  db.find? fun s => decide (s.id = i)

/-- The ORM relationship `state.children`: all rows whose `parent_id`
column equals `i`. -/
def childrenOf (db : List CellState) (i : ℤ) : List CellState :=
  db.filter fun s => decide (s.parent_id = some i)

namespace Crud

/-- The `while current.parent_id:` ancestor walk of
`crud.get_cell_state_lineage`.  Python's loop guard is a truthiness test,
so it also stops on a parent id of `0`; a parent id that resolves to no
row ends the walk (`break`).  The walk as written in the source does not
terminate on a cyclic parent chain, so the embedding carries a fuel
argument; `get_cell_state_lineage` below supplies fuel `db.length`,
which the lineage theorems show is enough on any forest-shaped store. -/
def ancestorsLoop (db : List CellState) : ℕ → CellState → List CellState
  | 0, _ => []
  | fuel + 1, current =>
    match current.parent_id with
    | none => []
    | some pid =>
      if pid = 0 then []
      else
        match getState db pid with
        | some par => par :: ancestorsLoop db fuel par
        | none => []

/-- The recursive `get_descendants` helper of `crud.get_cell_state_lineage`:
each child is appended, then its own descendants (depth-first preorder).
Fuel plays the same role as in `ancestorsLoop`. -/
def descendantsLoop (db : List CellState) : ℕ → CellState → List CellState
  | 0, _ => []
  | fuel + 1, s =>
    (childrenOf db s.id).flatMap fun c => c :: descendantsLoop db fuel c

/-- Embeds `crud.get_cell_state_lineage(session, state_id, direction)`. -/
def get_cell_state_lineage (db : List CellState) (state_id : ℤ)
    (direction : String := "both") : List CellState :=
  match getState db state_id with
  | none => []
  | some state =>
    (if direction = "ancestors" ∨ direction = "both" then
      ancestorsLoop db db.length state
    else []) ++
    (if direction = "descendants" ∨ direction = "both" then
      descendantsLoop db db.length state
    else [])

/-- A transition-log row.  Modelled from the spec: "a separate
transition-log table keyed by state id" — the `StateTransition` model is
referenced by `crud.py` but its definition is not under `src/`. -/
structure StateTransition where
  id : ℤ
  state_id : ℤ

/-- What a call to `crud.delete_cell_state` does: either it returns a
boolean, or it raises `AttributeError`. -/
inductive CrudDeleteResult where
  | returned (b : Bool)
  | attributeError
deriving DecidableEq

/-- Embeds `crud.delete_cell_state(session, state_id)`: returns `False`
when the row is absent (`session.get` is the first statement, before any
mutation).  For every existing row the very next statement,
`session.execute(select(StateTransition).where(...).delete())`, raises
`AttributeError` — a `Select` object has no `.delete()` method (that is
the legacy `Query` API) — so the exception propagates before the row's
transitions are removed, before any child's `parent_id` is nulled and
before the row is deleted: the store is returned unchanged.  (The
child-nulling and row-deletion statements further down the function body
are unreachable dead code; the function itself is shadowed in the router
by the endpoint's own `delete_cell_state`.) -/
def delete_cell_state (db : List CellState) (trs : List StateTransition)
    (state_id : ℤ) : (List CellState × List StateTransition) × CrudDeleteResult :=
  match getState db state_id with
  | none => ((db, trs), .returned false)
  | some _ => ((db, trs), .attributeError)

end Crud

namespace Routers

/-- The outcome of `DELETE /cell_states/{state_id}`
(`routers/cell_states.py`, `delete_cell_state`). -/
inductive DeleteOutcome where
  | notFound   -- HTTPException 404 "Cell state not found"
  | noContent  -- 204, the row was deleted
deriving DecidableEq

/-- Embeds `routers/cell_states.py delete_cell_state`: 404 when the row is
absent, otherwise `session.delete(state); session.commit()` — the row is
removed and, on flush, the ORM's default relationship handling sets the
`parent_id` of the children of the deleted row to `NULL`.  No check of
`state.children` is made before deleting. -/
def delete_cell_state (db : List CellState) (state_id : ℤ) :
    DeleteOutcome × List CellState :=
  match getState db state_id with
  | none => (.notFound, db)
  | some _ =>
    let db1 := db.map fun s =>
      if s.parent_id = some state_id then { s with parent_id := none } else s
    (.noContent, db1.filter fun s => ¬ decide (s.id = state_id))

/-- Lines 48-51 of `routers/cell_states.py`: the new row qualifies for the
auto-calculation when its `parent_id` is truthy (set and non-zero), its
`parameters` dict is truthy (non-empty) and
`parameters.get('transition_parameters')` is truthy. -/
def autoCalcCandidate (s : CellState) : Prop :=
  (∃ pid, s.parent_id = some pid ∧ pid ≠ 0) ∧
  s.parameters ≠ [] ∧
  (∃ tp, lookup s.parameters "transition_parameters" = some tp ∧ tp.truthy)

/-- Models the `parameters['transition_parameters'].get('operation_type') !=
'measurement'` test.  When the (truthy) `transition_parameters` value is
not a mapping, Python raises `AttributeError` out of the handler — the
request fails after the insert and the parent is never updated, which this
embedding renders as the auto-calculation not running. -/
def transitionOpNotMeasurement (s : CellState) : Prop :=
  match lookup s.parameters "transition_parameters" with
  | some (JValue.obj fs) => lookup fs "operation_type" ≠ some (JValue.str "measurement")
  | _ => False

/-- Models `key.startswith('measured_')`, modelled as a character-list prefix
test (same semantics as `String.startsWith`, stated over `toList` so
that it evaluates by `decide`). -/
def startsWithMeasured (key : String) : Bool :=
  "measured_".toList.isPrefixOf key.toList

/-- The dictionary `measured_params` computed on lines 69-74, as parameter
entries (a `None` field is stored as JSON `null`). -/
def measuredEntries (m : MeasuredParams) : Params :=
  let optJ : Option ℝ → JValue := fun v =>
    match v with
    | none => JValue.null
    | some x => JValue.num x
  [("measured_growth_rate", optJ m.measured_growth_rate),
   ("measured_doubling_time", optJ m.measured_doubling_time),
   ("measured_density_limit", optJ m.measured_density_limit)]

open Classical in
/-- Embeds `routers/cell_states.py create_cell_state`, from the point where the
new row `db_state` has been constructed and committed (lines 42-45; the
`CellState` model validator run by the constructor only rewrites the new
row's own `growth_rate`/`doubling_time` parameter keys, never another
row, so the function is stated over an arbitrary already-validated row).
The new row is appended; when the conditions of lines 48-66 all hold the
parent row's parameters are updated with the computed measured
parameters.  No check that `parent_id` references an existing row is made
anywhere on the create path (`crud.create_cell_state` performs none
despite its docstring, and the default SQLite configuration does not
enforce the declared foreign key). -/
noncomputable def create_cell_state (db : List CellState)
    (db_state : CellState) : List CellState :=
  let db1 := db ++ [db_state]
  if autoCalcCandidate db_state ∧ transitionOpNotMeasurement db_state then
    match db_state.parent_id with
    | none => db1
    | some pid =>
      match getState db1 pid with
      | none => db1
      | some parent_state =>
        match lookup parent_state.parameters "cell_density",
              lookup db_state.parameters "cell_density" with
        | some pv, some cv =>
          if pv.isNumeric ∧ cv.isNumeric ∧ 0 < pv.numVal ∧ 0 < cv.numVal then
            if parent_state.parameters.any (fun kv => startsWithMeasured kv.1) then
              db1
            else
              let mp := Calcs.calculate_measured_parameters
                pv.numVal cv.numVal parent_state.timestamp db_state.timestamp
              db1.map fun s =>
                if s.id = pid then
                  { s with parameters := dictUpdate s.parameters (measuredEntries mp) }
                else s
          else db1
        | _, _ => db1
  else db1

end Routers

namespace Main

/-- The update payload (`CellStateUpdate`).  Modelled from the spec: the
schema class is imported from `schemas.py` but not defined under `src/`;
per the spec the PATCH body may carry `parameters` and/or
`additional_notes`.  An outer `none` means the field was not sent
(`model_dump(exclude_unset=True)` omits it); `parameters` is kept as a
raw JSON value so that a non-mapping payload is representable. -/
structure CellStateUpdatePayload where
  parameters : Option JValue := none
  additional_notes : Option (Option String) := none

/-- The outcome of `PATCH /api/states/{state_id}` (`main.update_state`). -/
inductive PatchOutcome where
  | notFound                                      -- 404 "State not found"
  | badParameters                                 -- 400 "'parameters' must be an object"
  | noUpdateData                                  -- 400 "No update data provided."
  | ok (db : List CellState) (state : CellState)  -- 200, updated store and row

/-- Embeds `main.update_state(state_id, state_update)`: 404 when the row is
absent; 400 when `parameters` is sent but is not a mapping; otherwise the
sent `parameters` mapping is merged key-wise into the existing mapping
(`new_params = current.copy(); new_params.update(incoming)`) and a sent
`additional_notes` replaces the field; 400 when no field was sent at all.
(The source's resetting of a non-dict stored `parameters` cannot arise
here because the store types `parameters` as a mapping.) -/
def update_state (db : List CellState) (state_id : ℤ)
    (state_update : CellStateUpdatePayload) : PatchOutcome :=
  match getState db state_id with
  | none => .notFound
  | some db_state =>
    match state_update.parameters with
    | some (JValue.obj incoming) =>
      let s1 := { db_state with
        parameters := dictUpdate db_state.parameters incoming }
      let s2 :=
        match state_update.additional_notes with
        | some n => { s1 with additional_notes := n }
        | none => s1
      .ok (db.map fun s => if s.id = state_id then s2 else s) s2
    | some _ => .badParameters
    | none =>
      match state_update.additional_notes with
      | some n =>
        let s2 := { db_state with additional_notes := n }
        .ok (db.map fun s => if s.id = state_id then s2 else s) s2
      | none => .noUpdateData

end Main

/-! ## Concrete stores and rows used in theorems and witnesses -/

/-- A parent row with id 1 and no parent of its own. -/
def parentNode : CellState := { id := 1 }

/-- A child row with id 2 whose `parent_id` references `parentNode`. -/
def childNode : CellState := { id := 2, parent_id := some 1 }

/-- A row whose `parent_id` references id 999, which exists nowhere. -/
def orphanNode : CellState := { id := 1, parent_id := some 999 }

/-- A parent row that already carries a measured parameter. -/
def measuredParent : CellState :=
  { id := 1
    parameters := [("measured_growth_rate", JValue.num 2),
                   ("cell_density", JValue.num 5)] }

/-- A new row that would otherwise trigger the auto-calculation. -/
def passageChild : CellState :=
  { id := 2
    parent_id := some 1
    timestamp := 3600
    parameters := [("transition_parameters",
                     JValue.obj [("operation_type", JValue.str "passage")]),
                   ("cell_density", JValue.num 7)] }

/-- The stored row for the C4 witness, with parameters `{a:1, b:2}`. -/
def mergeBase : CellState :=
  { id := 1, parameters := [("a", JValue.num 1), ("b", JValue.num 2)] }

/-- The C4 witness payload, `{"parameters": {b:3, c:4}}`. -/
def mergePayload : Main.CellStateUpdatePayload :=
  { parameters := some (JValue.obj [("b", JValue.num 3), ("c", JValue.num 4)]) }

namespace Crud

/-- Ancestor relation ("x is a strict ancestor of c"): x is reachable from c by following
`parent_id` upward through ids that resolve to a row — the claim's
description of the ancestor set ("until null or a missing node"). -/
inductive UpReach (db : List CellState) : CellState → CellState → Prop where
  | parent {c : CellState} {pid : ℤ} {p : CellState} :
      c.parent_id = some pid → getState db pid = some p → UpReach db c p
  | step {c : CellState} {pid : ℤ} {p x : CellState} :
      c.parent_id = some pid → getState db pid = some p →
      UpReach db p x → UpReach db c x

/-- Descendant relation ("x is a strict descendant of s"): x is reachable from s through the
`children` relationship. -/
inductive DownReach (db : List CellState) : CellState → CellState → Prop where
  | child {s c : CellState} : c ∈ childrenOf db s.id → DownReach db s c
  | step {s c x : CellState} : c ∈ childrenOf db s.id →
      DownReach db c x → DownReach db s x

/-- The store is forest-shaped: some rank function, bounded by the store
size, strictly decreases from every row to its resolved parent.  Every
finite store whose parent graph is acyclic admits such a rank (the
ancestor-chain depth, which is at most the number of rows); a cyclic
store admits none, and on it the source's walk would not terminate. -/
def RankedForest (db : List CellState) (rank : ℤ → ℕ) : Prop :=
  (∀ s, s ∈ db → rank s.id ≤ db.length) ∧
  (∀ s, s ∈ db → ∀ pid p, s.parent_id = some pid →
    getState db pid = some p → rank p.id < rank s.id)

end Crud

/-- The root of the example chain root→A→B→C. -/
def chainRoot (r : ℤ) : CellState := { id := r }

/-- Node A of the example chain: child of the root. -/
def chainA (r a : ℤ) : CellState := { id := a, parent_id := some r }

/-- Node B of the example chain: child of A. -/
def chainB (a b : ℤ) : CellState := { id := b, parent_id := some a }

/-- Node C of the example chain: child of B. -/
def chainC (b c : ℤ) : CellState := { id := c, parent_id := some b }

/-- A four-row store holding exactly the chain root→A→B→C. -/
def chainDb (r a b c : ℤ) : List CellState :=
  [chainRoot r, chainA r a, chainB a b, chainC b c]

/-! ## Helper lemmas -/

theorem logb_two_pow (k : ℕ) : Real.logb 2 (2 ^ k) = k := by
  rw [Real.logb_pow, Real.logb_self_eq_one (by norm_num), mul_one]

theorem pyRound_zero (n : ℤ) : Calcs.pyRound 0 n = 0 := by
  unfold Calcs.pyRound Calcs.roundHalfToEven
  norm_num

theorem pyRound_one_point_two : Calcs.pyRound 1.2 0 = 1 := by
  unfold Calcs.pyRound Calcs.roundHalfToEven
  rw [zpow_zero, mul_one]
  have hf : ⌊(1.2 : ℝ)⌋ = 1 := by
    rw [Int.floor_eq_iff]
    norm_num
  rw [hf, if_pos (by norm_num)]
  norm_num

/-! ## Claims about the kinetics calculator -/

/-- C1: `calc_generation` raises an invalid-input error exactly when
`seed_count ≤ 0` or `harvest_count ≤ 0`; for positive counts it returns
`log2(harvest_count / seed_count)`, plus `parent_generation` when one is
supplied; seed=1, harvest=8 yields 3.0 and seed=2, harvest=8 yields 2.0. -/
theorem calc_generation_spec (s h : ℤ) (p : Option ℝ) (g : ℝ) :
    (Calcs.calc_generation s h p =
        .error "Seed and harvest counts must be positive" ↔ s ≤ 0 ∨ h ≤ 0) ∧
    (0 < s → 0 < h →
      Calcs.calc_generation s h none =
        .ok (Real.logb 2 ((h : ℝ) / (s : ℝ))) ∧
      Calcs.calc_generation s h (some g) =
        .ok (g + Real.logb 2 ((h : ℝ) / (s : ℝ)))) ∧
    Calcs.calc_generation 1 8 none = .ok 3 ∧
    Calcs.calc_generation 2 8 none = .ok 2 := by
  refine ⟨?_, ?_, ?_, ?_⟩
  · unfold Calcs.calc_generation
    by_cases hc : s ≤ 0 ∨ h ≤ 0
    · simp [hc]
    · rw [if_neg hc]
      simp only [iff_false_intro hc, iff_false]
      cases p <;> simp
  · intro hs hh
    have hc : ¬ (s ≤ 0 ∨ h ≤ 0) := by
      push_neg
      exact ⟨hs, hh⟩
    constructor <;> simp [Calcs.calc_generation, hc]
  · unfold Calcs.calc_generation
    rw [if_neg (by norm_num)]
    have : ((8 : ℤ) : ℝ) / ((1 : ℤ) : ℝ) = 2 ^ (3 : ℕ) := by norm_num
    simp only [this, logb_two_pow]
    norm_num
  · unfold Calcs.calc_generation
    rw [if_neg (by norm_num)]
    have : ((8 : ℤ) : ℝ) / ((2 : ℤ) : ℝ) = 2 ^ (2 : ℕ) := by norm_num
    simp only [this, logb_two_pow]
    norm_num

/-- Witness for C1 at seed=2, harvest=8, parent generation 1. -/
theorem calc_generation_spec_witness :
    (0 : ℤ) < 2 ∧ (0 : ℤ) < 8 ∧
    Calcs.calc_generation 2 8 (some 1) =
      .ok (1 + Real.logb 2 (((8 : ℤ) : ℝ) / ((2 : ℤ) : ℝ))) ∧
    Calcs.calc_generation 2 8 none = .ok 2 := by
  have h := calc_generation_spec 2 8 (some 1) 1
  exact ⟨by norm_num, by norm_num,
    (h.2.1 (by norm_num) (by norm_num)).2, h.2.2.2⟩

/-- C5: for every pair of validly formatted timestamps and every pd,
`calc_doubling_time_hours` returns `None` whenever `pd ≤ 0`; when
`pd > 0` it returns the elapsed time in (fractional) hours divided by
`pd`. -/
theorem calc_doubling_time_hours_spec (s h : ℤ) (pd : ℝ) :
    (pd ≤ 0 → Calcs.calc_doubling_time_hours s h pd = none) ∧
    (0 < pd →
      Calcs.calc_doubling_time_hours s h pd =
        some ((((h - s : ℤ) : ℝ) / 60) / pd)) := by
  constructor
  · intro hpd
    simp [Calcs.calc_doubling_time_hours, not_lt.mpr hpd]
  · intro hpd
    simp only [Calcs.calc_doubling_time_hours, if_pos (show pd > 0 from hpd)]
    congr 1
    ring

/-- Witness for C5: two hours elapsed, pd = 2 gives 1 hour; pd = -1
gives no value. -/
theorem calc_doubling_time_hours_spec_witness :
    ((-1 : ℝ) ≤ 0 ∧ Calcs.calc_doubling_time_hours 0 120 (-1) = none) ∧
    ((0 : ℝ) < 2 ∧ Calcs.calc_doubling_time_hours 0 120 2 = some 1) := by
  refine ⟨⟨by norm_num, (calc_doubling_time_hours_spec 0 120 (-1)).1 (by norm_num)⟩,
    by norm_num, ?_⟩
  rw [(calc_doubling_time_hours_spec 0 120 2).2 (by norm_num)]
  norm_num

/-- C6: `calc_cumulative_pd(None, _)` is `None`; `calc_cumulative_pd(x, None) = x`;
`calc_cumulative_pd(x, y) = x + y`. -/
theorem calc_cumulative_pd_spec (x y : ℝ) (p : Option ℝ) :
    Calcs.calc_cumulative_pd none p = none ∧
    Calcs.calc_cumulative_pd (some x) none = some x ∧
    Calcs.calc_cumulative_pd (some x) (some y) = some (x + y) :=
  ⟨rfl, rfl, rfl⟩

/-- C7: `calculate_measured_parameters` returns all-`None` fields whenever
the timestamps are non-increasing, a density is non-positive, or the end
density is below the start density. -/
theorem calculate_measured_parameters_not_applicable
    (sd ed st et : ℝ)
    (h : et ≤ st ∨ sd ≤ 0 ∨ ed ≤ 0 ∨ ed < sd) :
    Calcs.calculate_measured_parameters sd ed st et = ⟨none, none, none⟩ := by
  unfold Calcs.calculate_measured_parameters
  by_cases h1 : (et - st) / 3600 ≤ 0
  · rw [if_pos h1]
  · rw [if_neg h1]
    by_cases h2 : sd ≤ 0 ∨ ed ≤ 0
    · rw [if_pos h2]
    · rw [if_neg h2]
      by_cases h3 : ed < sd
      · rw [if_pos h3]
      · exfalso
        push_neg at h2
        have ht : 0 < et - st := by
          by_contra hn
          push_neg at hn
          exact h1 (div_nonpos_of_nonpos_of_nonneg (by linarith) (by norm_num))
        rcases h with h | h | h | h
        · linarith
        · exact absurd h (not_le.mpr h2.1)
        · exact absurd h (not_le.mpr h2.2)
        · exact h3 h

/-- Witness for C7: a density drop (2 → 1) yields all-`None` fields. -/
theorem calculate_measured_parameters_not_applicable_witness :
    ((1 : ℝ) < 2 ∨ True) ∧
    Calcs.calculate_measured_parameters 2 1 0 3600 = ⟨none, none, none⟩ :=
  ⟨Or.inl (by norm_num),
    calculate_measured_parameters_not_applicable 2 1 0 3600
      (Or.inr (Or.inr (Or.inr (by norm_num))))⟩

open Classical in
/-- C8: in the applicable case the growth rate is
`ln(end/start)/hours`, the doubling time is `ln 2 / rate` exactly when the
rate is positive, and the density limit is `2 × end` when the end density
exceeded `1.5 × start` and `1.2 × end` otherwise (each as rounded by the
code before being returned). -/
theorem calculate_measured_parameters_applicable
    (sd ed st et : ℝ) (hsd : 0 < sd) (hed : sd ≤ ed) (ht : st < et) :
    Calcs.calculate_measured_parameters sd ed st et =
      { measured_growth_rate :=
          some (Calcs.pyRound (Real.log (ed / sd) / ((et - st) / 3600)) 6)
        measured_doubling_time :=
          if 0 < Real.log (ed / sd) / ((et - st) / 3600) then
            some (Calcs.pyRound
              (Real.log 2 / (Real.log (ed / sd) / ((et - st) / 3600))) 2)
          else none
        measured_density_limit :=
          some (Calcs.pyRound (if 1.5 * sd < ed then 2 * ed else 1.2 * ed) 0) } := by
  have hh : ¬ (et - st) / 3600 ≤ 0 :=
    not_le.mpr (div_pos (by linarith) (by norm_num))
  have hdens : ¬ (sd ≤ 0 ∨ ed ≤ 0) := by
    push_neg
    exact ⟨hsd, by linarith⟩
  have hlt : ¬ ed < sd := not_lt.mpr hed
  unfold Calcs.calculate_measured_parameters
  rw [if_neg hh, if_neg hdens, if_neg hlt]
  by_cases hrpos : Real.log (ed / sd) / ((et - st) / 3600) > 0
  · have hdt : Real.log 2 / (Real.log (ed / sd) / ((et - st) / 3600)) ≠ 0 :=
      ne_of_gt (div_pos (Real.log_pos (by norm_num)) hrpos)
    simp only [if_pos hrpos, if_pos (gt_iff_lt.mpr hrpos), hdt, if_pos hdt,
      ne_eq, not_false_eq_true, if_true, gt_iff_lt]
  · simp only [if_neg hrpos, gt_iff_lt, if_neg (by rw [gt_iff_lt] at hrpos; exact hrpos)]

/-- Witness for C8: no growth (start = end = 1 over one hour) gives
measured growth rate 0 and no doubling time; the density limit heuristic
gives `round(1.2 × 1) = 1`. -/
theorem calculate_measured_parameters_applicable_witness :
    (0 : ℝ) < 1 ∧ (1 : ℝ) ≤ 1 ∧ (0 : ℝ) < 3600 ∧
    Calcs.calculate_measured_parameters 1 1 0 3600 =
      { measured_growth_rate := some 0
        measured_doubling_time := none
        measured_density_limit := some 1 } := by
  refine ⟨by norm_num, le_refl 1, by norm_num, ?_⟩
  rw [calculate_measured_parameters_applicable 1 1 0 3600 (by norm_num)
    (le_refl 1) (by norm_num)]
  have hlog : Real.log ((1 : ℝ) / 1) = 0 := by
    norm_num
  have hr : Real.log ((1 : ℝ) / 1) / (((3600 : ℝ) - 0) / 3600) = 0 := by
    rw [hlog, zero_div]
  rw [hr]
  rw [if_neg (lt_irrefl 0), if_neg (by norm_num : ¬ (1.5 : ℝ) * 1 < 1), mul_one,
    pyRound_zero, pyRound_one_point_two]

/-! ## Claims about deletion (C2) and referential integrity (C9)

The spec requires deletion policy (b): a node with a child must be
rejected with a 409 conflict and the store left unchanged.  The repo's
own tests assert this policy (`tests/unit/test_crud.py`
`test_delete_cell_state_has_children` expects an HTTP 409 from
`crud.delete_cell_state`; `tests/api_tests/test_cell_states.py` expects
409 from the endpoint), but neither deletion path behaves that way: the
endpoint deletes the node unconditionally and orphan-then-nulls its
children, and the crud helper raises `AttributeError` for every existing
row. -/

/-- C2 (evaluation at the failing input): the DELETE endpoint, applied to
a node that has a child, does not reject with a conflict — it deletes the
node, nulls the child's parent reference, and reports success.  The
404-on-absent and delete-childless-node parts of the claim do hold on
the endpoint, as the first two conjuncts show.  The shadowed
`crud.delete_cell_state` helper does not implement the claimed 409
either: at the same input it raises `AttributeError` (leaving the store
unchanged), and it crashes the same way even for a childless row. -/
theorem delete_cell_state_with_children_succeeds :
    Routers.delete_cell_state [] 1 = (.notFound, []) ∧
    Routers.delete_cell_state [parentNode] 1 = (.noContent, []) ∧
    Routers.delete_cell_state [parentNode, childNode] 1 =
      (.noContent, [{ childNode with parent_id := none }]) ∧
    Crud.delete_cell_state [parentNode, childNode] [] 1 =
      (([parentNode, childNode], []), .attributeError) ∧
    Crud.delete_cell_state [parentNode] [] 1 =
      (([parentNode], []), .attributeError) :=
  ⟨rfl, rfl, rfl, rfl, rfl⟩

/-- C9 (evaluation at the failing input): creating a state whose
`parent_id` references no existing row succeeds and stores the dangling
reference — no operation on the create path validates the parent
relationship, so referential integrity is not an invariant of the store. -/
theorem create_cell_state_stores_dangling_parent :
    Routers.create_cell_state [] orphanNode = [orphanNode] ∧
    orphanNode.parent_id = some 999 ∧
    getState [orphanNode] 999 = none := by
  refine ⟨?_, rfl, rfl⟩
  unfold Routers.create_cell_state
  rw [if_neg (fun hcon => hcon.1.2.1 rfl)]
  rfl

/-! ## C10: creation never overwrites existing measured parameters -/

/-- C10: when the new row's parent (as looked up by the endpoint) already
has a parameter key beginning with `measured_`, the create endpoint
leaves every pre-existing row — in particular the parent and its
parameters — completely unchanged: the store is exactly the old store
with the new row appended. -/
theorem create_cell_state_preserves_measured_parent
    (db : List CellState) (db_state p : CellState) (pid : ℤ)
    (hpid : db_state.parent_id = some pid)
    (hp : getState (db ++ [db_state]) pid = some p)
    (hm : (p.parameters.any fun kv => Routers.startsWithMeasured kv.1) = true) :
    Routers.create_cell_state db db_state = db ++ [db_state] := by
  unfold Routers.create_cell_state
  by_cases hc : Routers.autoCalcCandidate db_state ∧
      Routers.transitionOpNotMeasurement db_state
  · rw [if_pos hc, hpid]
    simp only [hp]
    repeat' split
    all_goals rfl
  · rw [if_neg hc]

/-! ## C4: PATCH merges parameters key-wise -/

theorem lookup_cons_hit (a : String) (v : JValue) (d : Params) :
    lookup ((a, v) :: d) a = some v := by
  unfold lookup
  rw [List.find?_cons_of_pos _ (by simp)]
  rfl

theorem lookup_cons_miss (a : String) (v : JValue) (d : Params) (k : String)
    (h : ¬ a = k) : lookup ((a, v) :: d) k = lookup d k := by
  unfold lookup
  rw [List.find?_cons_of_neg _ (by simpa using h)]

theorem lookup_append (d e : Params) (k : String) :
    lookup (d ++ e) k =
      match lookup d k with
      | some v => some v
      | none => lookup e k := by
  unfold lookup
  rw [List.find?_append]
  cases List.find? (fun p => decide (p.1 = k)) d <;> rfl

theorem lookup_overwrite (d inc : Params) (k : String) :
    lookup
      (d.map fun p =>
        match lookup inc p.1 with
        | some v => (p.1, v)
        | none => p) k =
      match lookup d k with
      | none => none
      | some v =>
        match lookup inc k with
        | some w => some w
        | none => some v := by
  induction d with
  | nil => rfl
  | cons q d ih =>
    obtain ⟨a, v⟩ := q
    simp only [List.map_cons]
    by_cases hq : a = k
    · subst hq
      cases hv : lookup inc a <;> simp only [hv, lookup_cons_hit]
    · cases hv : lookup inc a <;>
        simp only [hv, lookup_cons_miss _ _ _ _ hq] <;>
        exact ih

theorem lookup_filter_fresh (d inc : Params) (k : String)
    (h : lookup d k = none) :
    lookup (inc.filter fun p => (lookup d p.1).isNone) k = lookup inc k := by
  induction inc with
  | nil => rfl
  | cons q inc ih =>
    obtain ⟨a, v⟩ := q
    rw [List.filter_cons]
    by_cases hq : a = k
    · subst hq
      rw [if_pos (by rw [h]; rfl), lookup_cons_hit, lookup_cons_hit]
    · by_cases hkeep : (lookup d a).isNone = true
      · rw [if_pos hkeep, lookup_cons_miss _ _ _ _ hq,
          lookup_cons_miss _ _ _ _ hq]
        exact ih
      · rw [if_neg hkeep, lookup_cons_miss _ _ _ _ hq]
        exact ih

/-- Key-wise characterisation of `dict.update`: an incoming key wins,
every other key keeps its current value. -/
theorem lookup_dictUpdate (d inc : Params) (k : String) :
    lookup (dictUpdate d inc) k =
      match lookup inc k with
      | some v => some v
      | none => lookup d k := by
  unfold dictUpdate
  rw [lookup_append, lookup_overwrite]
  cases hd : lookup d k with
  | some v => cases lookup inc k <;> rfl
  | none =>
    rw [lookup_filter_fresh d inc k hd]
    cases lookup inc k <;> rfl

/-- C4: the PATCH merge-update of a state's parameters is a key-wise
merge — the request succeeds, the stored mapping is
`current.update(incoming)`, each incoming key overwrites, every key not
mentioned keeps its value (so the mapping is never wholesale-replaced),
and `{a:1, b:2}` updated with `{b:3, c:4}` yields `{a:1, b:3, c:4}`. -/
theorem update_state_merges_parameters
    (db : List CellState) (i : ℤ) (upd : Main.CellStateUpdatePayload)
    (st : CellState) (incoming : Params)
    (hst : getState db i = some st)
    (hupd : upd.parameters = some (JValue.obj incoming))
    (hnotes : upd.additional_notes = none) :
    Main.update_state db i upd =
      .ok
        (db.map fun s =>
          if s.id = i then
            { st with parameters := dictUpdate st.parameters incoming }
          else s)
        { st with parameters := dictUpdate st.parameters incoming } ∧
    (∀ k, lookup (dictUpdate st.parameters incoming) k =
      match lookup incoming k with
      | some v => some v
      | none => lookup st.parameters k) ∧
    dictUpdate [("a", JValue.num 1), ("b", JValue.num 2)]
        [("b", JValue.num 3), ("c", JValue.num 4)] =
      [("a", JValue.num 1), ("b", JValue.num 3), ("c", JValue.num 4)] := by
  refine ⟨?_, fun k => lookup_dictUpdate st.parameters incoming k, rfl⟩
  unfold Main.update_state
  rw [hst, hupd, hnotes]

/-- Witness for C4: the merge at the spec's example store. -/
theorem update_state_merges_parameters_witness :
    getState [mergeBase] 1 = some mergeBase ∧
    mergePayload.parameters =
      some (JValue.obj [("b", JValue.num 3), ("c", JValue.num 4)]) ∧
    Main.update_state [mergeBase] 1 mergePayload =
      .ok [{ mergeBase with parameters :=
              [("a", JValue.num 1), ("b", JValue.num 3), ("c", JValue.num 4)] }]
          { mergeBase with parameters :=
              [("a", JValue.num 1), ("b", JValue.num 3), ("c", JValue.num 4)] } := by
  refine ⟨rfl, rfl, ?_⟩
  have h := (update_state_merges_parameters [mergeBase] 1 mergePayload mergeBase
    [("b", JValue.num 3), ("c", JValue.num 4)] rfl rfl rfl).1
  exact h

/-- Witness for C10 at a concrete store. -/
theorem create_cell_state_preserves_measured_parent_witness :
    passageChild.parent_id = some 1 ∧
    getState ([measuredParent] ++ [passageChild]) 1 = some measuredParent ∧
    (measuredParent.parameters.any fun kv => Routers.startsWithMeasured kv.1) = true ∧
    Routers.create_cell_state [measuredParent] passageChild =
      [measuredParent] ++ [passageChild] :=
  ⟨rfl, rfl, by decide,
    create_cell_state_preserves_measured_parent [measuredParent] passageChild
      measuredParent 1 rfl rfl (by decide)⟩

/-! ## C3: lineage traversal -/

theorem getState_mem {db : List CellState} {i : ℤ} {s : CellState}
    (h : getState db i = some s) : s ∈ db ∧ s.id = i := by
  refine ⟨List.mem_of_find?_eq_some h, ?_⟩
  have := List.find?_some h
  simpa using this

theorem getState_zero_of_pos {db : List CellState}
    (hpos : ∀ s ∈ db, 0 < s.id) : getState db 0 = none := by
  apply List.find?_eq_none.mpr
  intro s hs
  simpa using (hpos s hs).ne'

theorem mem_childrenOf {db : List CellState} {i : ℤ} {c : CellState} :
    c ∈ childrenOf db i ↔ c ∈ db ∧ c.parent_id = some i := by
  simp [childrenOf, List.mem_filter]

theorem ancestorsLoop_step {db : List CellState} {fuel : ℕ} {s p : CellState}
    {pid : ℤ} (h1 : s.parent_id = some pid) (hz : pid ≠ 0)
    (h2 : getState db pid = some p) :
    Crud.ancestorsLoop db (fuel + 1) s = p :: Crud.ancestorsLoop db fuel p := by
  simp [Crud.ancestorsLoop, h1, hz, h2]

theorem ancestorsLoop_root {db : List CellState} {fuel : ℕ} {s : CellState}
    (h1 : s.parent_id = none) : Crud.ancestorsLoop db (fuel + 1) s = [] := by
  simp [Crud.ancestorsLoop, h1]

theorem descendantsLoop_succ (db : List CellState) (fuel : ℕ) (s : CellState) :
    Crud.descendantsLoop db (fuel + 1) s =
      (childrenOf db s.id).flatMap fun c => c :: Crud.descendantsLoop db fuel c :=
  rfl

theorem rank_lt_of_child {db : List CellState} {rank : ℤ → ℕ}
    (hF : Crud.RankedForest db rank) {s c : CellState} (hs : s ∈ db)
    (hc : c ∈ childrenOf db s.id) : rank s.id < rank c.id := by
  obtain ⟨hcdb, hcpar⟩ := mem_childrenOf.mp hc
  have hsome : (getState db s.id).isSome := by
    apply List.find?_isSome.mpr
    exact ⟨s, hs, by simp⟩
  obtain ⟨q, hq⟩ := Option.isSome_iff_exists.mp hsome
  have hqid : q.id = s.id := (getState_mem hq).2
  have := hF.2 c hcdb s.id q hcpar hq
  rwa [hqid] at this

/-- On a ranked forest, the fuelled ancestor walk started at a row of
rank at most the fuel enumerates exactly the `UpReach`-reachable rows. -/
theorem mem_ancestorsLoop {db : List CellState} {rank : ℤ → ℕ}
    (hF : Crud.RankedForest db rank) (hpos : ∀ s ∈ db, 0 < s.id) :
    ∀ (fuel : ℕ) (c : CellState), c ∈ db → rank c.id ≤ fuel →
      ∀ x, x ∈ Crud.ancestorsLoop db fuel c ↔ Crud.UpReach db c x := by
  intro fuel
  induction fuel with
  | zero =>
    intro c hc hr x
    simp only [Crud.ancestorsLoop, List.not_mem_nil, false_iff]
    intro hx
    have hex : ∃ pid p, c.parent_id = some pid ∧ getState db pid = some p := by
      cases hx with
      | parent h1 h2 => exact ⟨_, _, h1, h2⟩
      | step h1 h2 _ => exact ⟨_, _, h1, h2⟩
    obtain ⟨pid, p, h1, h2⟩ := hex
    have hlt := hF.2 c hc pid p h1 h2
    omega
  | succ n ih =>
    intro c hc hr x
    cases hpid : c.parent_id with
    | none =>
      simp only [Crud.ancestorsLoop, hpid, List.not_mem_nil, false_iff]
      intro hx
      cases hx with
      | parent h1 h2 => rw [hpid] at h1; exact Option.noConfusion h1
      | step h1 h2 hup => rw [hpid] at h1; exact Option.noConfusion h1
    | some pid =>
      by_cases hz : pid = 0
      · subst hz
        have h0 : getState db 0 = none := getState_zero_of_pos hpos
        simp only [Crud.ancestorsLoop, hpid, eq_self_iff_true, if_true,
          List.not_mem_nil, false_iff]
        intro hx
        cases hx with
        | parent h1 h2 =>
          rw [hpid] at h1
          injection h1 with h1e
          rw [← h1e, h0] at h2
          exact Option.noConfusion h2
        | step h1 h2 hup =>
          rw [hpid] at h1
          injection h1 with h1e
          rw [← h1e, h0] at h2
          exact Option.noConfusion h2
      · cases hget : getState db pid with
        | none =>
          simp only [Crud.ancestorsLoop, hpid, if_neg hz, hget,
            List.not_mem_nil, false_iff]
          intro hx
          cases hx with
          | parent h1 h2 =>
            rw [hpid] at h1
            injection h1 with h1e
            rw [← h1e, hget] at h2
            exact Option.noConfusion h2
          | step h1 h2 hup =>
            rw [hpid] at h1
            injection h1 with h1e
            rw [← h1e, hget] at h2
            exact Option.noConfusion h2
        | some par =>
          have hparmem := (getState_mem hget).1
          have hlt := hF.2 c hc pid par hpid hget
          have ihp := ih par hparmem (by omega)
          simp only [Crud.ancestorsLoop, hpid, if_neg hz, hget, List.mem_cons]
          constructor
          · rintro (rfl | hx)
            · exact Crud.UpReach.parent hpid hget
            · exact Crud.UpReach.step hpid hget ((ihp x).mp hx)
          · intro hx
            cases hx with
            | parent h1 h2 =>
              rw [hpid] at h1
              injection h1 with h1e
              rw [← h1e, hget] at h2
              injection h2 with h2e
              exact Or.inl h2e.symm
            | step h1 h2 hup =>
              rw [hpid] at h1
              injection h1 with h1e
              rw [← h1e, hget] at h2
              injection h2 with h2e
              exact Or.inr ((ihp x).mpr (h2e ▸ hup))

/-- On a ranked forest, the fuelled depth-first descendant walk
enumerates exactly the `DownReach`-reachable rows once the fuel together
with the start row's rank covers the store size. -/
theorem mem_descendantsLoop {db : List CellState} {rank : ℤ → ℕ}
    (hF : Crud.RankedForest db rank) :
    ∀ (fuel : ℕ) (s : CellState), s ∈ db → db.length ≤ fuel + rank s.id →
      ∀ x, x ∈ Crud.descendantsLoop db fuel s ↔ Crud.DownReach db s x := by
  intro fuel
  induction fuel with
  | zero =>
    intro s hs hr x
    simp only [Crud.descendantsLoop, List.not_mem_nil, false_iff]
    intro hx
    have hex : ∃ c, c ∈ childrenOf db s.id := by
      cases hx with
      | child h => exact ⟨_, h⟩
      | step h _ => exact ⟨_, h⟩
    obtain ⟨c, hcmem⟩ := hex
    have hlt := rank_lt_of_child hF hs hcmem
    have hbound := hF.1 c (mem_childrenOf.mp hcmem).1
    omega
  | succ n ih =>
    intro s hs hr x
    rw [descendantsLoop_succ]
    rw [List.mem_flatMap]
    constructor
    · rintro ⟨c, hcmem, hx⟩
      have hlt := rank_lt_of_child hF hs hcmem
      have hcdb := (mem_childrenOf.mp hcmem).1
      rcases List.mem_cons.mp hx with rfl | hx2
      · exact Crud.DownReach.child hcmem
      · exact Crud.DownReach.step hcmem
          ((ih c hcdb (by omega) x).mp hx2)
    · intro hx
      cases hx with
      | child h => exact ⟨_, h, List.mem_cons_self _ _⟩
      | step h hdown =>
        have hlt := rank_lt_of_child hF hs h
        have hcdb := (mem_childrenOf.mp h).1
        exact ⟨_, h, List.mem_cons_of_mem _
          ((ih _ hcdb (by omega) x).mpr hdown)⟩

/-- C3: on the four-row chain root→A→B→C the lineage query at B returns
exactly {root, A} for "ancestors", exactly {C} for "descendants" and
exactly {root, A, C} for "both" (as the concrete result lists, which, for
ancestors, come out parent-first); and in general, on every forest-shaped
store with positive ids, the query enumerates exactly the rows reachable
by following `parent_id` upward (ancestors) and the rows reachable
through children depth-first (descendants), with "both" their union. -/
theorem get_cell_state_lineage_spec :
    (∀ r a b c : ℤ, 0 < r → 0 < a → 0 < b → 0 < c →
      r ≠ a → r ≠ b → r ≠ c → a ≠ b → a ≠ c → b ≠ c →
      Crud.get_cell_state_lineage (chainDb r a b c) b "ancestors" =
        [chainA r a, chainRoot r] ∧
      Crud.get_cell_state_lineage (chainDb r a b c) b "descendants" =
        [chainC b c] ∧
      Crud.get_cell_state_lineage (chainDb r a b c) b "both" =
        [chainA r a, chainRoot r, chainC b c]) ∧
    (∀ (db : List CellState) (rank : ℤ → ℕ), Crud.RankedForest db rank →
      (∀ s ∈ db, 0 < s.id) →
      ∀ (i : ℤ) (st : CellState), getState db i = some st →
      ∀ x : CellState,
        (x ∈ Crud.get_cell_state_lineage db i "ancestors" ↔
          Crud.UpReach db st x) ∧
        (x ∈ Crud.get_cell_state_lineage db i "descendants" ↔
          Crud.DownReach db st x) ∧
        (x ∈ Crud.get_cell_state_lineage db i "both" ↔
          Crud.UpReach db st x ∨ Crud.DownReach db st x)) := by
  constructor
  · intro r a b c hr ha hb hc hra hrb hrc hab hac hbc
    have hgb : getState (chainDb r a b c) b = some (chainB a b) := by
      unfold getState chainDb chainRoot chainA chainB chainC
      rw [List.find?_cons_of_neg _ (by simp [hrb]),
        List.find?_cons_of_neg _ (by simp [hab]),
        List.find?_cons_of_pos _ (by simp)]
    have hga : getState (chainDb r a b c) a = some (chainA r a) := by
      unfold getState chainDb chainRoot chainA chainB chainC
      rw [List.find?_cons_of_neg _ (by simp [hra]),
        List.find?_cons_of_pos _ (by simp)]
    have hgr : getState (chainDb r a b c) r = some (chainRoot r) := by
      unfold getState chainDb chainRoot chainA chainB chainC
      rw [List.find?_cons_of_pos _ (by simp)]
    have hanc : Crud.ancestorsLoop (chainDb r a b c) (3 + 1) (chainB a b) =
        [chainA r a, chainRoot r] := by
      rw [ancestorsLoop_step (show (chainB a b).parent_id = some a from rfl)
          (ne_of_gt ha) hga,
        ancestorsLoop_step (show (chainA r a).parent_id = some r from rfl)
          (ne_of_gt hr) hgr,
        ancestorsLoop_root (show (chainRoot r).parent_id = none from rfl)]
    have hchB : childrenOf (chainDb r a b c) b = [chainC b c] := by
      unfold childrenOf chainDb chainRoot chainA chainB chainC
      rw [List.filter_cons, if_neg (by simp),
        List.filter_cons, if_neg (by simp [hrb]),
        List.filter_cons, if_neg (by simp [hab]),
        List.filter_cons, if_pos (by simp),
        List.filter_nil]
    have hchC : childrenOf (chainDb r a b c) c = [] := by
      unfold childrenOf chainDb chainRoot chainA chainB chainC
      rw [List.filter_cons, if_neg (by simp),
        List.filter_cons, if_neg (by simp [hrc]),
        List.filter_cons, if_neg (by simp [hac]),
        List.filter_cons, if_neg (by simp [hbc]),
        List.filter_nil]
    have hdesc : Crud.descendantsLoop (chainDb r a b c) (3 + 1) (chainB a b) =
        [chainC b c] := by
      rw [descendantsLoop_succ,
        show (chainB a b).id = b from rfl, hchB, List.flatMap_cons,
        descendantsLoop_succ,
        show (chainC b c).id = c from rfl, hchC]
      simp
    have hlen : (chainDb r a b c).length = 3 + 1 := rfl
    refine ⟨?_, ?_, ?_⟩
    · simp only [Crud.get_cell_state_lineage, hgb, eq_self_iff_true, true_or,
        or_true, if_true]
      rw [if_neg (by decide), hlen, hanc, List.append_nil]
    · simp only [Crud.get_cell_state_lineage, hgb, eq_self_iff_true, true_or,
        or_true, if_true]
      rw [if_neg (by decide), hlen, hdesc, List.nil_append]
    · simp only [Crud.get_cell_state_lineage, hgb, eq_self_iff_true, true_or,
        or_true, if_true]
      rw [hlen, hanc, hdesc]
      rfl
  · intro db rank hF hpos i st hst x
    have hstmem := (getState_mem hst).1
    have hanc := mem_ancestorsLoop hF hpos db.length st hstmem (hF.1 st hstmem) x
    have hdesc := mem_descendantsLoop hF db.length st hstmem (by omega) x
    refine ⟨?_, ?_, ?_⟩
    · simp only [Crud.get_cell_state_lineage, hst, eq_self_iff_true, true_or,
        or_true, if_true]
      rw [if_neg (by decide), List.append_nil]
      exact hanc
    · simp only [Crud.get_cell_state_lineage, hst, eq_self_iff_true, true_or,
        or_true, if_true]
      rw [if_neg (by decide), List.nil_append]
      exact hdesc
    · simp only [Crud.get_cell_state_lineage, hst, eq_self_iff_true, true_or,
        or_true, if_true]
      rw [List.mem_append]
      exact or_congr hanc hdesc

/-- Witness for C3: the chain with ids 1, 2, 3, 4, and the general
characterisation instantiated on the singleton store `[chainRoot 1]`. -/
theorem get_cell_state_lineage_spec_witness :
    (0 : ℤ) < 1 ∧ (1 : ℤ) ≠ 2 ∧
    Crud.get_cell_state_lineage (chainDb 1 2 3 4) 3 "ancestors" =
      [chainA 1 2, chainRoot 1] ∧
    Crud.get_cell_state_lineage (chainDb 1 2 3 4) 3 "descendants" =
      [chainC 3 4] ∧
    Crud.get_cell_state_lineage (chainDb 1 2 3 4) 3 "both" =
      [chainA 1 2, chainRoot 1, chainC 3 4] ∧
    Crud.RankedForest [chainRoot 1] (fun _ => 0) ∧
    (chainRoot 1 ∈ Crud.get_cell_state_lineage [chainRoot 1] 1 "ancestors" ↔
      Crud.UpReach [chainRoot 1] (chainRoot 1) (chainRoot 1)) := by
  obtain ⟨h1, h2, h3⟩ := get_cell_state_lineage_spec.1 1 2 3 4
    (by norm_num) (by norm_num) (by norm_num) (by norm_num) (by norm_num)
    (by norm_num) (by norm_num) (by norm_num) (by norm_num) (by norm_num)
  have hF : Crud.RankedForest [chainRoot 1] (fun _ => 0) := by
    constructor
    · intro s hs
      simp
    · intro s hs pid p hpid hget
      rcases List.mem_singleton.mp hs with rfl
      exact Option.noConfusion hpid
  have hgen := get_cell_state_lineage_spec.2 [chainRoot 1] (fun _ => 0) hF
    (by
      intro s hs
      rcases List.mem_singleton.mp hs with rfl
      norm_num [chainRoot])
    1 (chainRoot 1) rfl (chainRoot 1)
  exact ⟨by norm_num, by norm_num, h1, h2, h3, hF, hgen.1⟩

end CultureTracker
